import Mathlib

/-!
Shallow embedding of `copycat/store.go` (package copycat): the
reconciliation pipeline `SearchAndStore`, the destination store worker
`checkAndStoreMessages` and the source fetch worker `fetchEmails`.

External collaborators (the imap library, net/mail parsing, gob
encoding, the memcache client) are modelled as oracle inputs: each
worker-loop iteration receives the concrete outcome of every external
call it makes, and the embedding reproduces the control flow of the Go
source on those outcomes.  Machine integers (UIDs) are modelled as Nat:
no arithmetic is performed on them anywhere in the source.
-/

namespace Copycat

/-- `imap.FieldMap`: a map from attribute names to field values,
modelled as an association list.  `len` in the source is `List.length`
here. -/
abbrev FieldMap := List (String × String)

/-- A parsed `net/mail` message header: header keys to first values. -/
abbrev MailHeader := List (String × String)

/-- `msg.Header.Get(key)` of `net/mail`: the first value for the key,
or the empty string when the header is absent. -/
def headerGet (h : MailHeader) (key : String) : String :=
  match h.lookup key with
  | some v => v
  | none => ""

/-- `WorkRequest` (store.go:55): the work item the orchestrator builds
for every parsed source message and sends to every destination's store
queue. -/
structure WorkRequest where
  Value : String
  Header : String
  UID : Nat
deriving Repr, DecidableEq

/-- store.go:50-55: the work item built from a parsed header `msg` and
the response's UID: `WorkRequest{Value: msg.Header.Get("Message-Id"),
Header: "Message-Id", UID: rsp.MessageInfo().UID}`. -/
def workRequestOf (msgHeader : MailHeader) (uid : Nat) : WorkRequest :=
  { Value := headerGet msgHeader "Message-Id"
    Header := "Message-Id"
    UID := uid }

/-- `fetchRequest` (store.go:127-131) without its response channel: the
messages written to the channel are returned by the step model instead. -/
structure fetchRequest where
  MessageId : String
  UID : Nat
deriving Repr, DecidableEq

/-! ## The source fetch worker `fetchEmails` (store.go:135-196)

Per request the worker calls `cache.Get`, possibly `deserialize`,
possibly `conn.UIDFetch`, possibly `serialize` and `cache.Add`.  The
outcomes of those calls are the oracle below.  `deserialize` (gob) is an
uninterpreted function parameter `deser`. -/

/-- Outcome of `cache.Get(request.MessageId)` (bradfitz/gomemcache):
`item` is the returned `*memcache.Item` pointer (`none` = nil pointer;
`some bytes` carries `item.Value`), `err` is whether the returned error
was non-nil.  The real client returns a nil item whenever it returns an
error (a plain miss is `(nil, ErrCacheMiss)`). -/
structure CacheGetResult where
  item : Option (List Nat)
  err : Bool
deriving Repr, DecidableEq

/-- Oracle for one iteration of the `fetchEmails` loop body. -/
structure FetchOracle where
  /-- outcome of `cache.Get(request.MessageId)` (store.go:149) -/
  get : CacheGetResult
  /-- outcome of `imap.Wait(conn.UIDFetch(...))` (store.go:168): `none`
  when it errors, otherwise `cmd.Data` with each datum's
  `MessageInfo().Attrs` -/
  uidFetchData : Option (List FieldMap)
  /-- outcome of `serialize(msgFields)` (store.go:184) -/
  serialized : Option (List Nat)
  /-- whether `cache.Add(&cacheItem)` (store.go:191) returned nil -/
  addOk : Bool
deriving Repr, DecidableEq

/-- What one iteration of the `fetchEmails` loop body did. -/
structure FetchStepResult where
  /-- the messages written to `request.Response`, in order -/
  sent : List FieldMap
  /-- whether `conn.UIDFetch` was called -/
  didLiveFetch : Bool
  /-- whether `cache.Add` was called -/
  didCacheAdd : Bool
  /-- whether the iteration panicked (nil-pointer dereference) -/
  panicked : Bool
deriving Repr, DecidableEq

/-- store.go:165-194: the live-fetch part of the loop body, reached when
the cache branch falls through.  On `imap.Wait` error or empty
`cmd.Data`: log and continue, nothing sent.  Otherwise send
`cmd.Data[0].MessageInfo().Attrs`, then gob-encode it and `cache.Add`
it (a serialize error logs and continues; an add error is only
logged). -/
def fetchLive (o : FetchOracle) : FetchStepResult :=
  match o.uidFetchData with
  | none => { sent := [], didLiveFetch := true, didCacheAdd := false, panicked := false }
  | some data =>
    if data.length = 0 then
      { sent := [], didLiveFetch := true, didCacheAdd := false, panicked := false }
    else
      let msgFields := data.headD []
      match o.serialized with
      | none => { sent := [msgFields], didLiveFetch := true, didCacheAdd := false, panicked := false }
      | some _ => { sent := [msgFields], didLiveFetch := true, didCacheAdd := true, panicked := false }

/-- store.go:147-195, one iteration of `for request := range requests`.
The guard on the cache branch is `err != nil` (store.go:149), exactly as
in the source: the branch is entered when `cache.Get` RETURNS AN ERROR.
Inside it the code reads `msgBytes.Value`; when the item pointer is nil
(which the memcache client guarantees on every error) that is a
nil-pointer dereference, i.e. a panic.  When `cache.Get` succeeds
(`err == nil`) the branch is skipped and the worker goes straight to the
live fetch, ignoring the cached value. -/
def fetchStep (deser : List Nat → Option FieldMap) (o : FetchOracle) : FetchStepResult :=
  if o.get.err then
    match o.get.item with
    | none => { sent := [], didLiveFetch := false, didCacheAdd := false, panicked := true }
    | some bytes =>
      let msgFields := (deser bytes).getD []
      if msgFields.length > 0 then
        { sent := [msgFields], didLiveFetch := false, didCacheAdd := false, panicked := false }
      else
        fetchLive o
  else
    fetchLive o

/-- Connection-level effects a worker performs on its imap connection
(store.go: `Close`, `UIDSearch`, `UIDFetch`, `Append`). -/
inductive ConnEffect where
  | close (expunge : Bool)
  | uidSearch (fields : List String)
  | uidFetch (uid : Nat)
  | append
deriving Repr, DecidableEq

/-- The `for request := range requests` loop of `fetchEmails`: step
results and connection effects, truncated when an iteration panics (the
worker dies and serves no further request). -/
def fetchLoop (deser : List Nat → Option FieldMap) :
    List (fetchRequest × FetchOracle) → List FetchStepResult × List ConnEffect
  | [] => ([], [])
  | (req, o) :: rest =>
    if (fetchStep deser o).panicked then
      ([fetchStep deser o],
       if (fetchStep deser o).didLiveFetch then [ConnEffect.uidFetch req.UID] else [])
    else
      ((fetchStep deser o) :: (fetchLoop deser rest).1,
       (if (fetchStep deser o).didLiveFetch then [ConnEffect.uidFetch req.UID] else []) ++
         (fetchLoop deser rest).2)

/-- `fetchEmails` (store.go:135-196): if `GetConnection(src, true)`
fails the worker logs and returns at once; otherwise it serves the
request stream.  No exit path of the function closes the source
connection: the function contains no `Close` call. -/
def fetchEmails (connOk : Bool) (deser : List Nat → Option FieldMap)
    (reqs : List (fetchRequest × FetchOracle)) : List FetchStepResult × List ConnEffect :=
  if connOk then fetchLoop deser reqs else ([], [])

/-! ## The destination store worker `checkAndStoreMessages`
(store.go:78-125)

Per work request the worker calls `imap.Wait(dstConn.UIDSearch(...))`,
and on zero matches sends a `fetchRequest`, blocks on the response
channel, and on a non-empty response calls `dstConn.Append`.  The
outcomes of the external calls are the oracle below. -/

/-- store.go:92: the field list handed to `dstConn.UIDSearch`:
`[]imap.Field{"HEADER", request.Header, request.Value}`. -/
def searchQuery (request : WorkRequest) : List String :=
  ["HEADER", request.Header, request.Value]

/-- Oracle for one iteration of the `checkAndStoreMessages` loop body. -/
structure StoreOracle where
  /-- outcome of `imap.Wait(dstConn.UIDSearch(...))` (store.go:92):
  `none` when it errors, otherwise `cmd.Data[0].SearchResults()` -/
  searchResults : Option (List Nat)
  /-- the field map received from the fetch worker on the response
  channel (store.go:108) -/
  response : FieldMap
  /-- whether `imap.Wait(dstConn.Append(...))` (store.go:115) returned
  nil -/
  appendOk : Bool
deriving Repr, DecidableEq

/-- What one iteration of the `checkAndStoreMessages` loop body did. -/
structure StoreStepResult where
  /-- the `fetchRequest` sent on the shared fetch queue, if any
  (store.go:104-105) -/
  fetchSent : Option fetchRequest
  /-- whether `dstConn.Append` was called (store.go:115); its own error
  is only logged (store.go:116-119) -/
  didAppend : Bool
deriving Repr, DecidableEq

/-- store.go:88-122, one iteration of `for request := range
storeRequests`: search the destination for the identifier; on search
error log and continue; on zero matches send a fetch request and block
for the response; on an empty response log and continue; otherwise
append the snapshot to the destination's INBOX. -/
def storeStep (request : WorkRequest) (o : StoreOracle) :
    StoreStepResult × List ConnEffect :=
  match o.searchResults with
  | none => ({ fetchSent := none, didAppend := false },
             [ConnEffect.uidSearch (searchQuery request)])
  | some results =>
    if results.length = 0 then
      let fr : fetchRequest := { MessageId := request.Value, UID := request.UID }
      if o.response.length = 0 then
        ({ fetchSent := some fr, didAppend := false },
         [ConnEffect.uidSearch (searchQuery request)])
      else
        ({ fetchSent := some fr, didAppend := true },
         [ConnEffect.uidSearch (searchQuery request), ConnEffect.append])
    else
      ({ fetchSent := none, didAppend := false },
       [ConnEffect.uidSearch (searchQuery request)])

/-- The `for request := range storeRequests` loop of
`checkAndStoreMessages`: step results and connection effects. -/
def storeLoop : List (WorkRequest × StoreOracle) → List StoreStepResult × List ConnEffect
  | [] => ([], [])
  | (req, o) :: rest =>
    ((storeStep req o).1 :: (storeLoop rest).1,
     (storeStep req o).2 ++ (storeLoop rest).2)

/-- `checkAndStoreMessages` (store.go:78-125): if
`GetConnection(dst, false)` fails the worker logs and returns having
touched no connection; otherwise `defer dstConn.Close(true)` runs on
every exit path of the loop, so the run's connection effects end with
exactly one `Close(true)`. -/
def checkAndStoreMessages (connOk : Bool) (items : List (WorkRequest × StoreOracle)) :
    List StoreStepResult × List ConnEffect :=
  if connOk then
    let (rs, es) := storeLoop items
    (rs, es ++ [ConnEffect.close true])
  else ([], [])

/-! ## The orchestrator `SearchAndStore` (store.go:17-76) -/

/-- One element of `cmd.Data` from `GetAllMessages` (store.go:48-49):
the message's `RFC822.HEADER` bytes and its UID. -/
structure SrcMessage where
  header : List Nat
  UID : Nat
deriving Repr, DecidableEq

/-- store.go:47-60 as a declarative list: one `WorkRequest` per listed
source message whose header `mail.ReadMessage` parses (returns a
non-nil message), in listing order; an unparseable message yields
nothing. -/
def buildWorkRequests (parse : List Nat → Option MailHeader)
    (data : List SrcMessage) : List WorkRequest :=
  data.filterMap fun m => (parse m.header).map fun hdr => workRequestOf hdr m.UID

/-- store.go:47-60, the delivery loop as written: per response, parse
the header with `mail.ReadMessage`; when it parses, append the work
request to every destination queue in order (store.go:56-58); when it
does not, the parse error is discarded (`msg, _ :=`) and nothing is
logged or sent.  `queues` holds each destination's queue so far,
`logs` the log lines the loop has produced. -/
def sendLoop (parse : List Nat → Option MailHeader)
    (queues : List (List WorkRequest)) (logs : List String) :
    List SrcMessage → List (List WorkRequest) × List String
  | [] => (queues, logs)
  | m :: rest =>
    match parse m.header with
    | some hdr =>
      sendLoop parse (queues.map fun q => q ++ [workRequestOf hdr m.UID]) logs rest
    | none => sendLoop parse queues logs rest

/-- The orchestration events of `SearchAndStore` in program order:
delivering a work request to a destination's queue (store.go:56-58),
closing a destination's queue (store.go:63-65), `storers.Wait()`
returning — every store worker of every destination has exited
(store.go:67) —, `close(fetchRequests)` (store.go:70), and
`fetchers.Wait()` returning (store.go:72). -/
inductive OrchEvent where
  | deliver (dst : Nat) (w : WorkRequest)
  | closeStoreQueue (dst : Nat)
  | storersWaitDone
  | closeFetchQueue
  | fetchersWaitDone
deriving Repr, DecidableEq

/-- The delivery events of store.go:47-60: for each parsed source
message, one `deliver` per destination, destinations in order within
each message, messages in listing order. -/
def deliverEvents (parse : List Nat → Option MailHeader) (numDsts : Nat)
    (data : List SrcMessage) : List OrchEvent :=
  data.flatMap fun m =>
    match parse m.header with
    | some hdr =>
      (List.range numDsts).map fun d => OrchEvent.deliver d (workRequestOf hdr m.UID)
    | none => []

/-- store.go:47-72: deliveries, then the close of every destination
queue, then `storers.Wait()`, then `close(fetchRequests)`, then
`fetchers.Wait()`. -/
def searchAndStoreEvents (parse : List Nat → Option MailHeader) (numDsts : Nat)
    (data : List SrcMessage) : List OrchEvent :=
  deliverEvents parse numDsts data ++
  (List.range numDsts).map OrchEvent.closeStoreQueue ++
  [OrchEvent.storersWaitDone, OrchEvent.closeFetchQueue, OrchEvent.fetchersWaitDone]

/-- `SearchAndStore` (store.go:17-76): when `GetAllMessages` fails it
logs and returns that error at once (store.go:19-23); otherwise it runs
the pipeline to completion and returns nil (store.go:75).  The result
is the returned error (`none` = nil) and the orchestration event
trace; per-item failures inside the workers never reach the return
value. -/
def SearchAndStore (parse : List Nat → Option MailHeader) (numDsts : Nat)
    (listing : Except String (List SrcMessage)) : Option String × List OrchEvent :=
  match listing with
  | .error e => (some e, [])
  | .ok data => (none, searchAndStoreEvents parse numDsts data)

/-- `p` events all come strictly before `q` events in `l`. -/
def eventsBefore (l : List OrchEvent) (p q : OrchEvent → Bool) : Prop :=
  ∀ i j (hi : i < l.length) (hj : j < l.length),
    p (l.get ⟨i, hi⟩) = true → q (l.get ⟨j, hj⟩) = true → i < j

/-- Is the event a delivery? -/
def isDeliver : OrchEvent → Bool
  | .deliver _ _ => true
  | _ => false

/-- Is the event the close of a destination queue? -/
def isCloseStore : OrchEvent → Bool
  | .closeStoreQueue _ => true
  | _ => false

/-- Is the event `storers.Wait()` returning? -/
def isStorersWait : OrchEvent → Bool
  | .storersWaitDone => true
  | _ => false

/-- Is the event `close(fetchRequests)`? -/
def isCloseFetch : OrchEvent → Bool
  | .closeFetchQueue => true
  | _ => false

/-! ### Concrete scenarios for the fetch worker -/

/-- A gob decoder under which every cached byte string deserializes into
a non-empty field map: a genuinely valid, non-empty cache entry. -/
def deserGood : List Nat → Option FieldMap :=
  fun _ => some [("INTERNALDATE", "01-Jan-2020"), ("BODY[]", "cached-body")]

/-- Oracle of a genuine cache hit: the identifier has a cache entry, so
`cache.Get` succeeds (`err == nil`) and returns the item; the live fetch
would succeed too. -/
def cacheHitOracle : FetchOracle :=
  { get := { item := some [7, 7], err := false }
    uidFetchData := some [[("INTERNALDATE", "02-Feb-2021"), ("BODY[]", "live-body")]]
    serialized := some [1]
    addOk := true }

/-- A request for an identifier whose entry is cached. -/
def cachedReq : fetchRequest := { MessageId := "<id-1@example.com>", UID := 11 }

/-- Oracle of a plain cache miss: `cache.Get` returns
`(nil, ErrCacheMiss)`. -/
def cacheMissOracle : FetchOracle :=
  { get := { item := none, err := true }
    uidFetchData := some [[("INTERNALDATE", "02-Feb-2021"), ("BODY[]", "live-body")]]
    serialized := some [1]
    addOk := true }

/-- Oracle of a failed live fetch: `cache.Get` succeeded (entry
present), `imap.Wait(conn.UIDFetch(...))` errors. -/
def fetchFailOracle : FetchOracle :=
  { get := { item := some [9], err := false }
    uidFetchData := none
    serialized := none
    addOk := false }

/-- Oracle of an empty live-fetch result: `cmd.Data` has no entries. -/
def fetchEmptyOracle : FetchOracle :=
  { get := { item := some [9], err := false }
    uidFetchData := some []
    serialized := none
    addOk := false }

end Copycat

namespace Copycat

/-- C1: the claim says a request whose identifier has a valid non-empty
cache entry is answered from the cache with no live fetch, so a second
request for an identifier already resolved performs no second live
fetch.  The code inverts the cache guard (`err != nil`, store.go:149):
on a successful `cache.Get` the cached value is ignored and
`conn.UIDFetch` runs, and the response sent is the live data, not the
cached snapshot; two consecutive requests for the same cached
identifier both perform a live fetch.  This contradicts the source's
own comments ("check if the message body is in memcached", "if its
there, respond with it") — a code bug, demonstrated here by evaluating
the worker on a concrete cache hit. -/
theorem fetchEmails_live_fetches_despite_cache_hit :
    (fetchStep deserGood cacheHitOracle).didLiveFetch = true ∧
    (fetchStep deserGood cacheHitOracle).sent =
      [[("INTERNALDATE", "02-Feb-2021"), ("BODY[]", "live-body")]] ∧
    (fetchEmails true deserGood
        [(cachedReq, cacheHitOracle), (cachedReq, cacheHitOracle)]).1.map
      FetchStepResult.didLiveFetch = [true, true] := by
  refine ⟨rfl, rfl, rfl⟩

/-- C2: the claim says that on a failed or empty live fetch the worker
sends an empty snapshot on the response channel so the store worker can
skip.  The code (store.go:169-177) logs and `continue`s WITHOUT writing
anything to `request.Response`: nothing is ever sent, and the store
worker blocked at `attrs := <-response` (store.go:108) on the
unbuffered single-use channel waits forever.  The store worker's own
empty-response check (store.go:109) shows the intended protocol — a
code bug, demonstrated by evaluating the worker on a failed and on an
empty fetch. -/
theorem fetchEmails_sends_nothing_on_failed_fetch :
    (fetchStep deserGood fetchFailOracle).sent = [] ∧
    (fetchStep deserGood fetchFailOracle).didLiveFetch = true ∧
    (fetchStep deserGood fetchEmptyOracle).sent = [] ∧
    (fetchStep deserGood fetchEmptyOracle).didLiveFetch = true := by
  refine ⟨rfl, rfl, rfl, rfl⟩

/-- C3: the claim says any `cache.Get` error (including a plain miss)
degrades to a live fetch without crashing.  On an error the memcache
client returns a nil item, the guard `err != nil` (store.go:149) enters
the branch, and `msgBytes.Value` (store.go:152) dereferences the nil
pointer: the fetch worker panics instead of live-fetching — a code bug,
demonstrated by evaluating the worker on a plain cache miss. -/
theorem fetchEmails_panics_on_cache_miss :
    (fetchStep deserGood cacheMissOracle).panicked = true ∧
    (fetchStep deserGood cacheMissOracle).didLiveFetch = false ∧
    (fetchStep deserGood cacheMissOracle).sent = [] := by
  refine ⟨rfl, rfl, rfl⟩

/-- Path predicate: the iteration responded from the cache branch
(store.go:159-161): the cache branch was entered with a non-nil item
whose bytes deserialize to a non-empty field map. -/
def respondedFromCache (deser : List Nat → Option FieldMap) (o : FetchOracle) : Prop :=
  o.get.err = true ∧ ∃ b, o.get.item = some b ∧ 0 < ((deser b).getD []).length

/-- Path predicate: the iteration reached the live-fetch section
(store.go:165 onward). -/
def reachesLive (deser : List Nat → Option FieldMap) (o : FetchOracle) : Prop :=
  o.get.err = false ∨ ∃ b, o.get.item = some b ∧ ((deser b).getD []).length = 0

/-- Path predicate: the iteration responded from a successful,
non-empty live fetch (store.go:179-180). -/
def respondedFromLive (deser : List Nat → Option FieldMap) (o : FetchOracle) : Prop :=
  reachesLive deser o ∧ ∃ d, o.uidFetchData = some d ∧ 0 < d.length

lemma fetchLive_sent_le_one (o : FetchOracle) : (fetchLive o).sent.length ≤ 1 := by
  rcases h : o.uidFetchData with _ | data
  · simp [fetchLive, h]
  · rcases hs : o.serialized with _ | s <;> by_cases hd : data.length = 0 <;>
      simp [fetchLive, h, hs, hd]

lemma fetchLive_sent_one_iff (o : FetchOracle) :
    (fetchLive o).sent.length = 1 ↔ ∃ d, o.uidFetchData = some d ∧ 0 < d.length := by
  rcases h : o.uidFetchData with _ | data
  · simp [fetchLive, h]
  · rcases hs : o.serialized with _ | s <;> by_cases hd : data.length = 0 <;>
      simp [fetchLive, h, hs, hd] <;> omega

/-- C8: per request the fetch worker writes to the single-use response
channel at most once — no path writes twice (each of the two send sites,
store.go:160 and store.go:180, is followed by `continue` or falls to
the end of the iteration) — and exactly one message is written precisely
on the cache-respond path or on a successful non-empty live fetch; every
other path (cache-error panic, failed live fetch, empty result) writes
zero messages. -/
theorem fetchEmails_response_written_at_most_once
    (deser : List Nat → Option FieldMap) (o : FetchOracle) :
    (fetchStep deser o).sent.length ≤ 1 ∧
    ((fetchStep deser o).sent.length = 1 ↔
      respondedFromCache deser o ∨ respondedFromLive deser o) := by
  rcases herr : o.get.err
  · have hstep : fetchStep deser o = fetchLive o := by
      simp [fetchStep, herr]
    rw [hstep]
    refine ⟨fetchLive_sent_le_one o, ?_⟩
    rw [fetchLive_sent_one_iff o]
    constructor
    · intro hl
      exact Or.inr ⟨Or.inl herr, hl⟩
    · rintro (⟨hc, -⟩ | ⟨-, hl⟩)
      · rw [herr] at hc
        exact absurd hc (by simp)
      · exact hl
  · rcases hitem : o.get.item with _ | bytes
    · have hstep : fetchStep deser o =
          { sent := [], didLiveFetch := false, didCacheAdd := false, panicked := true } := by
        simp [fetchStep, herr, hitem]
      rw [hstep]
      simp [respondedFromCache, respondedFromLive, reachesLive, herr, hitem]
    · by_cases hb : 0 < ((deser bytes).getD []).length
      · have hstep : fetchStep deser o =
            { sent := [(deser bytes).getD []], didLiveFetch := false,
              didCacheAdd := false, panicked := false } := by
          simp [fetchStep, herr, hitem, hb]
        rw [hstep]
        refine ⟨by simp, ?_⟩
        simp only [List.length_singleton, true_iff]
        exact Or.inl ⟨herr, bytes, hitem, hb⟩
      · have hstep : fetchStep deser o = fetchLive o := by
          simp [fetchStep, herr, hitem, hb]
        rw [hstep]
        refine ⟨fetchLive_sent_le_one o, ?_⟩
        rw [fetchLive_sent_one_iff o]
        constructor
        · intro hl
          refine Or.inr ⟨Or.inr ⟨bytes, hitem, ?_⟩, hl⟩
          omega
        · rintro (⟨-, b, hbeq, hblen⟩ | ⟨-, hl⟩)
          · rw [hitem] at hbeq
            cases hbeq
            exact absurd hblen hb
          · exact hl

/-- C6: a store worker calls `Append` for a work item exactly when the
existence search succeeded with zero matches and the fetched response
is non-empty, and it sends a fetch request exactly when the search
succeeded with zero matches; in particular, when the destination
already has a match (`SearchResults()` non-empty) the item causes no
append and no fetch, so re-running the reconciliation appends nothing
for identifiers already present. -/
theorem checkAndStoreMessages_appends_only_new_nonempty
    (request : WorkRequest) (o : StoreOracle) :
    ((storeStep request o).1.didAppend = true ↔
      o.searchResults = some [] ∧ 0 < o.response.length) ∧
    ((storeStep request o).1.fetchSent.isSome = true ↔ o.searchResults = some []) := by
  rcases h : o.searchResults with _ | (_ | ⟨x, results⟩)
  · simp [storeStep, h]
  · by_cases hresp : o.response.length = 0 <;> (simp [storeStep, h, hresp]; try omega)
  · simp [storeStep, h]

/-- C9: a source message whose header parses but has no Message-Id
header is not skipped: `msg.Header.Get("Message-Id")` returns the empty
string, so the loop builds a work request with identifier `""` and any
two such messages share it; the destination existence search both of
them trigger is the same `UIDSearch ["HEADER", "Message-Id", ""]`, and
any fetch request such an item causes carries `MessageId = ""` — the
shared dedup key and cache key (store.go:104, 149, 190). -/
theorem workRequest_missing_message_id_empty_key
    (h1 h2 : MailHeader) (u1 u2 : Nat) (m : SrcMessage)
    (parse : List Nat → Option MailHeader)
    (hm1 : h1.lookup "Message-Id" = none) (hm2 : h2.lookup "Message-Id" = none)
    (hp : parse m.header = some h1) :
    (workRequestOf h1 u1).Value = "" ∧
    (workRequestOf h1 u1).Value = (workRequestOf h2 u2).Value ∧
    searchQuery (workRequestOf h1 u1) = searchQuery (workRequestOf h2 u2) ∧
    buildWorkRequests parse [m] = [workRequestOf h1 m.UID] ∧
    (∀ o fr, (storeStep (workRequestOf h1 u1) o).1.fetchSent = some fr →
      fr.MessageId = "") := by
  have hv1 : (workRequestOf h1 u1).Value = "" := by
    simp [workRequestOf, headerGet, hm1]
  have hv2 : (workRequestOf h2 u2).Value = "" := by
    simp [workRequestOf, headerGet, hm2]
  refine ⟨hv1, by rw [hv1, hv2], ?_, ?_, ?_⟩
  · simp [searchQuery, workRequestOf, headerGet, hm1, hm2]
  · simp [buildWorkRequests, hp]
  · intro o fr hfr
    rcases h : o.searchResults with _ | results
    · simp [storeStep, h] at hfr
    · by_cases hr : results.length = 0 <;>
        by_cases hresp : o.response.length = 0 <;>
          simp [storeStep, h, hr, hresp] at hfr <;>
          simp [← hfr, hv1]

/-- Witness for C9 at two concrete headers without a Message-Id. -/
theorem workRequest_missing_message_id_empty_key_witness :
    (workRequestOf [("Subject", "hello")] 1).Value = "" ∧
    (workRequestOf [("Subject", "hello")] 1).Value = (workRequestOf [] 2).Value ∧
    searchQuery (workRequestOf [("Subject", "hello")] 1) =
      searchQuery (workRequestOf [] 2) ∧
    buildWorkRequests (fun _ => some [("Subject", "hello")])
      [{ header := [3], UID := 7 }] = [workRequestOf [("Subject", "hello")] 7] ∧
    (∀ o fr,
      (storeStep (workRequestOf [("Subject", "hello")] 1) o).1.fetchSent = some fr →
        fr.MessageId = "") :=
  workRequest_missing_message_id_empty_key [("Subject", "hello")] [] 1 2
    { header := [3], UID := 7 } (fun _ => some [("Subject", "hello")])
    (by decide) (by decide) rfl

lemma close_not_mem_storeStep (b : Bool) (r : WorkRequest) (o : StoreOracle) :
    ConnEffect.close b ∉ (storeStep r o).2 := by
  rcases h : o.searchResults with _ | results
  · simp [storeStep, h]
  · by_cases hr : results.length = 0 <;> by_cases hresp : o.response.length = 0 <;>
      simp [storeStep, h, hr, hresp]

lemma close_not_mem_storeLoop (b : Bool) (items : List (WorkRequest × StoreOracle)) :
    ConnEffect.close b ∉ (storeLoop items).2 := by
  induction items with
  | nil => simp [storeLoop]
  | cons p rest ih =>
    rcases p with ⟨r, o⟩
    rw [storeLoop]
    rw [List.mem_append]
    rintro (h | h)
    · exact close_not_mem_storeStep b r o h
    · exact ih h

lemma close_not_mem_fetchLoop (b : Bool) (deser : List Nat → Option FieldMap)
    (reqs : List (fetchRequest × FetchOracle)) :
    ConnEffect.close b ∉ (fetchLoop deser reqs).2 := by
  induction reqs with
  | nil => simp [fetchLoop]
  | cons p rest ih =>
    rcases p with ⟨r, o⟩
    rw [fetchLoop]
    by_cases hp : (fetchStep deser o).panicked <;>
      by_cases hl : (fetchStep deser o).didLiveFetch <;>
        simp [hp, hl] <;> intro h <;> exact ih h

/-- C10: the two workers' connection lifetimes differ exactly as
claimed: a store worker that connected successfully ends its run with
exactly one `Close(true)` — the `defer dstConn.Close(true)` of
store.go:86 with expunge enabled, run on every exit path of its loop —
and a store worker whose connect failed performs no connection effect
at all, while a fetch worker performs no `Close` on any path and with
any outcome: `fetchEmails` contains no close call, so its source
connection stays open when the worker exits. -/
theorem checkAndStoreMessages_closes_fetchEmails_never
    (items : List (WorkRequest × StoreOracle)) (deser : List Nat → Option FieldMap)
    (reqs : List (fetchRequest × FetchOracle)) (connOk : Bool) :
    (checkAndStoreMessages true items).2.getLast? = some (ConnEffect.close true) ∧
    (checkAndStoreMessages true items).2.count (ConnEffect.close true) = 1 ∧
    checkAndStoreMessages false items = ([], []) ∧
    (∀ e, ConnEffect.close e ∉ (fetchEmails connOk deser reqs).2) := by
  refine ⟨?_, ?_, by simp [checkAndStoreMessages], ?_⟩
  · rw [checkAndStoreMessages]
    simp only [if_true]
    rw [List.getLast?_append_of_ne_nil _ (by simp)]
    rfl
  · rw [checkAndStoreMessages]
    simp only [if_true]
    rw [List.count_append]
    rw [List.count_eq_zero.mpr (close_not_mem_storeLoop true items)]
    rfl
  · intro e
    rw [fetchEmails]
    by_cases hc : connOk
    · simp only [hc, if_true]
      exact close_not_mem_fetchLoop e deser reqs
    · simp [hc]

/-! ### Orchestrator theorems -/

lemma sendLoop_replicate (parse : List Nat → Option MailHeader) (n : Nat)
    (data : List SrcMessage) :
    ∀ (q0 : List WorkRequest) (logs : List String),
      sendLoop parse (List.replicate n q0) logs data =
        (List.replicate n (q0 ++ buildWorkRequests parse data), logs) := by
  induction data with
  | nil =>
    intro q0 logs
    simp [sendLoop, buildWorkRequests]
  | cons m rest ih =>
    intro q0 logs
    rcases hp : parse m.header with _ | hdr
    · rw [sendLoop, hp]
      dsimp only
      rw [ih]
      simp [buildWorkRequests, List.filterMap_cons, hp]
    · rw [sendLoop, hp]
      dsimp only
      rw [List.map_replicate]
      rw [ih]
      simp [buildWorkRequests, List.filterMap_cons, hp, List.append_assoc]

/-- C7 (amended): for each listed source message whose header parses,
the delivery loop builds exactly one work request and appends that same
request to every destination queue, so every queue ends as the same
list, in source listing order; an unparseable message contributes
nothing to any queue and — contrary to the original claim — produces NO
log line: the loop discards the parse error silently and its log output
is empty. -/
theorem searchAndStore_workitem_fanout (parse : List Nat → Option MailHeader)
    (n : Nat) (data : List SrcMessage) :
    sendLoop parse (List.replicate n []) [] data =
      (List.replicate n (buildWorkRequests parse data), []) := by
  rw [sendLoop_replicate]
  simp

/-- A header parser that fails on every input: `mail.ReadMessage`
returns a nil message for every listed message. -/
def parseNone : List Nat → Option MailHeader := fun _ => none

/-- A concrete listed source message (header bytes and UID). -/
def rawMsg : SrcMessage := { header := [72, 105], UID := 5 }

/-- C7 counterexample: the claim says an unparseable message "is
skipped with a log line".  Running the delivery loop of
`SearchAndStore` with one destination on one unparseable message leaves
the queue empty AND produces an empty log output — there is no log call
on the skip path (store.go:50 discards the error): the "with a log
line" half of the claim is false at this input. -/
theorem searchAndStore_unparseable_skipped_without_log :
    sendLoop parseNone [[]] [] [rawMsg] = ([[]], []) ∧
    (sendLoop parseNone [[]] [] [rawMsg]).2.length = 0 := ⟨rfl, rfl⟩

/-- C5: `SearchAndStore` returns an error exactly when the initial bulk
listing (`GetAllMessages`, store.go:19-23) fails, and then returns that
error; on a successful listing it returns nil (store.go:75) for every
parser outcome and destination count — per-item worker failures are
logged inside the workers and never reach the return value. -/
theorem searchAndStore_error_iff_listing_fails
    (parse : List Nat → Option MailHeader) (n : Nat)
    (listing : Except String (List SrcMessage)) :
    ((SearchAndStore parse n listing).1 = none ↔ ∃ data, listing = Except.ok data) ∧
    (∀ e, listing = Except.error e → (SearchAndStore parse n listing).1 = some e) := by
  rcases listing with e | data
  · refine ⟨?_, ?_⟩
    · simp [SearchAndStore]
    · intro e2 he
      rw [SearchAndStore]
      simp at he
      rw [he]
  · refine ⟨?_, ?_⟩
    · simp [SearchAndStore]
    · intro e2 he
      simp at he

lemma of_isDeliver {e : OrchEvent} (h : isDeliver e = true) :
    isCloseStore e = false ∧ isStorersWait e = false ∧ isCloseFetch e = false := by
  cases e <;> simp_all [isDeliver, isCloseStore, isStorersWait, isCloseFetch]

lemma of_isCloseStore {e : OrchEvent} (h : isCloseStore e = true) :
    isDeliver e = false ∧ isStorersWait e = false ∧ isCloseFetch e = false := by
  cases e <;> simp_all [isDeliver, isCloseStore, isStorersWait, isCloseFetch]

lemma deliverEvents_all (parse : List Nat → Option MailHeader) (n : Nat)
    (data : List SrcMessage) :
    ∀ e ∈ deliverEvents parse n data, isDeliver e = true := by
  intro e he
  rw [deliverEvents, List.mem_flatMap] at he
  rcases he with ⟨m, -, he⟩
  rcases hp : parse m.header with _ | hdr
  · rw [hp] at he
    simp at he
  · rw [hp] at he
    rw [List.mem_map] at he
    rcases he with ⟨d, -, rfl⟩
    rfl

lemma closeEvents_all (n : Nat) :
    ∀ e ∈ (List.range n).map OrchEvent.closeStoreQueue, isCloseStore e = true := by
  intro e he
  rw [List.mem_map] at he
  rcases he with ⟨d, -, rfl⟩
  rfl

lemma eventsBefore_of_split (A B : List OrchEvent) (p q : OrchEvent → Bool)
    (hpB : ∀ e ∈ B, p e = false) (hqA : ∀ e ∈ A, q e = false) :
    eventsBefore (A ++ B) p q := by
  intro i j hi hj hp hq
  rcases Nat.lt_or_ge j A.length with hjA | hjA
  · exfalso
    have heq : (A ++ B).get ⟨j, hj⟩ = A.get ⟨j, hjA⟩ := by
      simp [List.get_eq_getElem]
      exact List.getElem_append_left hjA
    rw [heq] at hq
    rw [hqA _ (List.get_mem A _ _)] at hq
    exact Bool.false_ne_true hq
  · rcases Nat.lt_or_ge i A.length with hiA | hiA
    · exact Nat.lt_of_lt_of_le hiA hjA
    · exfalso
      have hsub : i - A.length < B.length := by
        have h2 := hi
        simp only [List.length_append] at h2
        omega
      have heq : (A ++ B).get ⟨i, hi⟩ = B.get ⟨i - A.length, hsub⟩ := by
        simp [List.get_eq_getElem]
        exact List.getElem_append_right hiA
      rw [heq] at hp
      rw [hpB _ (List.get_mem B _ _)] at hp
      exact Bool.false_ne_true hp

/-- C4: the orchestration trace of a successful run orders shutdown as
claimed: every delivery comes before every close of a destination
queue; every such close comes before `storers.Wait()` returning (all
store workers exited); all of those, and in particular every delivery,
come before `close(fetchRequests)`, which does occur — the fetch queue
is never closed while a store worker that could still issue a fetch
request is running. -/
theorem searchAndStore_shutdown_ordering (parse : List Nat → Option MailHeader)
    (n : Nat) (data : List SrcMessage) :
    OrchEvent.storersWaitDone ∈ (SearchAndStore parse n (Except.ok data)).2 ∧
    OrchEvent.closeFetchQueue ∈ (SearchAndStore parse n (Except.ok data)).2 ∧
    eventsBefore (SearchAndStore parse n (Except.ok data)).2 isDeliver isCloseStore ∧
    eventsBefore (SearchAndStore parse n (Except.ok data)).2 isCloseStore isStorersWait ∧
    eventsBefore (SearchAndStore parse n (Except.ok data)).2 isDeliver isCloseFetch ∧
    eventsBefore (SearchAndStore parse n (Except.ok data)).2 isStorersWait isCloseFetch := by
  have hevs : (SearchAndStore parse n (Except.ok data)).2 =
      deliverEvents parse n data ++
        ((List.range n).map OrchEvent.closeStoreQueue ++
          [OrchEvent.storersWaitDone, OrchEvent.closeFetchQueue,
            OrchEvent.fetchersWaitDone]) := by
    rw [SearchAndStore, searchAndStoreEvents, List.append_assoc]
  have hD := deliverEvents_all parse n data
  have hC := closeEvents_all n
  have htail : ∀ e ∈ [OrchEvent.storersWaitDone, OrchEvent.closeFetchQueue,
      OrchEvent.fetchersWaitDone],
      isDeliver e = false ∧ isCloseStore e = false := by decide
  refine ⟨?_, ?_, ?_, ?_, ?_, ?_⟩
  · rw [hevs]
    simp
  · rw [hevs]
    simp
  · rw [hevs]
    refine eventsBefore_of_split _ _ _ _ ?_ ?_
    · intro e he
      rcases List.mem_append.mp he with h | h
      · exact (of_isCloseStore (hC e h)).1
      · exact (htail e h).1
    · intro e he
      exact (of_isDeliver (hD e he)).1
  · rw [hevs, ← List.append_assoc]
    refine eventsBefore_of_split _ _ _ _ ?_ ?_
    · intro e he
      fin_cases he <;> rfl
    · intro e he
      rcases List.mem_append.mp he with h | h
      · exact (of_isDeliver (hD e h)).2.1
      · exact (of_isCloseStore (hC e h)).2.1
  · rw [hevs]
    refine eventsBefore_of_split _ _ _ _ ?_ ?_
    · intro e he
      rcases List.mem_append.mp he with h | h
      · exact (of_isCloseStore (hC e h)).1
      · exact (htail e h).1
    · intro e he
      exact (of_isDeliver (hD e he)).2.2
  · have hevs2 : (SearchAndStore parse n (Except.ok data)).2 =
        ((deliverEvents parse n data ++
            (List.range n).map OrchEvent.closeStoreQueue) ++
          [OrchEvent.storersWaitDone]) ++
          [OrchEvent.closeFetchQueue, OrchEvent.fetchersWaitDone] := by
      rw [SearchAndStore, searchAndStoreEvents]
      simp [List.append_assoc]
    rw [hevs2]
    refine eventsBefore_of_split _ _ _ _ ?_ ?_
    · intro e he
      fin_cases he <;> rfl
    · intro e he
      rcases List.mem_append.mp he with h | h
      · rcases List.mem_append.mp h with h2 | h2
        · exact (of_isDeliver (hD e h2)).2.2
        · exact (of_isCloseStore (hC e h2)).2.2
      · fin_cases h
        rfl

end Copycat
